import Mathlib

/-!
Verification of the ImageRepository core against its specification.

The Python sources (`ImageNames.py`, `Caches.py`, `ImageType.py`) are shallowly
embedded below: every mutating method becomes a state-passing function; Python
exceptions become an explicit `PyError` value; `None`-or-value fields become
`Option`; Python `time.time()` / `time.clock()` become explicit `now`
parameters.  Nothing here executes the original program.
-/

namespace ImageRepo

/-- Python exception kinds that the embedded code can raise.  `attributeError`
is raised e.g. by `self._class__.__name__` (a typo in `Caches.py` line 323) and
by subscripting a `CacheEntry` (`entry[1]` in `_async_write_back`);
`valueError` by tuple-unpacking a list of the wrong length; `keyError` by a
missing dict key; `repositoryError` / `repositoryFailure` are the two
application exception classes from `Exceptions.py`. -/
inductive PyError where
  | attributeError
  | keyError
  | valueError
  | repositoryError
  | repositoryFailure
  deriving Repr, DecidableEq

/-- A fragment of Python's value universe, used for fields such as
`_image_size` that hold `None`, ints, strings or tuples depending on the code
path taken. -/
inductive PyV where
  | pynone
  | int (n : Int)
  | str (s : String)
  | pair (a b : PyV)
  deriving Repr, DecidableEq

/-- Python `"{}".format(x)` for an optional string: `None` prints as `"None"`. -/
def pyFmtOS : Option String → String
  | none => "None"
  | some s => s

/-- Python `"{}".format(x)` for an optional int: `None` prints as `"None"`. -/
def pyFmtOI : Option Int → String
  | none => "None"
  | some n => toString n

/-- Split a character list at every occurrence of the separator, keeping
empty pieces, as Python `str.split(sep)` and `re.split` do for a one-character
separator. -/
def splitOnChar (c : Char) : List Char → List (List Char)
  | [] => [[]]
  | x :: xs =>
    let r := splitOnChar c xs
    if x = c then [] :: r
    else (x :: r.headD []) :: r.tail

/-- Python `s.split(sep)` for a one-character separator, over `String`. -/
def pySplit (c : Char) (s : String) : List String :=
  (splitOnChar c s.data).map List.asString

/-- Python `s[:-1]`. -/
def pyDropLast (s : String) : String :=
  s.data.dropLast.asString

/-- Python `ch in s` for a single character. -/
def pyHasChar (s : String) (c : Char) : Bool :=
  s.data.any (· = c)

/-- Index of the last occurrence of `c` in `cs`, or `-1` when absent
(Python `str.rfind`). -/
def lastIdxOf (c : Char) (cs : List Char) : Int :=
  match cs.reverse.findIdx? (· = c) with
  | none => -1
  | some i => ((cs.length - 1 - i : Nat) : Int)

/-- Python 2 `os.path.splitext` (posix): the extension starts at the last dot
that lies after the last `/` and is preceded (within the final path component)
by at least one non-dot character. -/
def splitext (p : String) : String × String :=
  let cs := p.data
  let sepIndex := lastIdxOf '/' cs
  let dotIndex := lastIdxOf '.' cs
  if (decide (sepIndex < dotIndex) &&
      (List.range cs.length).any fun i =>
        decide (sepIndex < (i : Int)) && decide ((i : Int) < dotIndex) &&
        (cs.getD i '.' != '.')) = true
  then ((cs.take dotIndex.toNat).asString, (cs.drop dotIndex.toNat).asString)
  else (p, "")

/-- Characters `urllib.quote` never escapes (Python 2 `always_safe`); with
`safe = ""` these are exactly the characters left untouched. -/
def alwaysSafeChar (c : Char) : Bool :=
  (decide ('A'.toNat ≤ c.toNat) && decide (c.toNat ≤ 'Z'.toNat)) ||
  (decide ('a'.toNat ≤ c.toNat) && decide (c.toNat ≤ 'z'.toNat)) ||
  (decide ('0'.toNat ≤ c.toNat) && decide (c.toNat ≤ '9'.toNat)) ||
  c = '_' || c = '.' || c = '-'

/-- Upper-case hexadecimal digit. -/
def hexDigit (n : Nat) : Char :=
  "0123456789ABCDEF".data.getD n '0'

/-- Python 2 `urllib.quote(s, safe = "")` on ASCII input: percent-encode every
character outside `always_safe`. -/
def pyQuote (s : String) : String :=
  s.data.foldl
    (fun acc c =>
      if alwaysSafeChar c then acc.push c
      else (acc.push '%' |>.push (hexDigit (c.toNat / 16 % 16))).push
        (hexDigit (c.toNat % 16)))
    ""

/-- State of an `ImageNames.ImageName` object: one Bool per `_is_*` flag set in
`__init__`, plus the payload fields.  `thumbnailPhantom` models the attribute
`_thumbnail` that `_parse_name`'s thumbnail branch assigns (line 242) — a
distinct attribute from `_is_thumbnail`, which that branch never touches. -/
structure PyImageName where
  isThumbnail : Bool := false
  isDerived : Bool := false
  isBase : Bool := false
  isOriginal : Bool := false
  liquid : Bool := false
  equalise : Bool := false
  sharpen : Bool := false
  cloneFlag : Bool := false
  isMetadata : Bool := false
  isResize : Bool := false
  isConvert : Bool := false
  thumbnailPhantom : Bool := false
  baseName : Option String := none
  originalName : Option String := none
  imageKind : Option String := none
  imageSize : PyV := .pair .pynone .pynone
  operations : List String := []
  sizeAttr : Option PyV := none
  cropSize : Option PyV := none
  cropOrigin : Option PyV := none
  imageNameStr : Option String := none
  deriving Repr, DecidableEq

/-- One step of the operation loop of `ImageName._parse_name`
(`ImageNames.py` lines 213-261).  The loop threads the Python locals `x_size`,
`y_size`; a `ValueError` from tuple unpacking of the op parameters aborts the
loop with the partially-updated state (the caller `__init__` swallows it).
A failed split on `(` and an unknown operation name are printed and skipped.
`clone` only sets `_clone`; all other recognised ops are appended verbatim to
`_operations`. -/
def parseLoop : List String → PyImageName → PyV → PyV →
    PyImageName × PyV × PyV × Option PyError
  | [], st, x, y => (st, x, y, none)
  | op :: rest, st, x, y =>
    let st := { st with isBase := false }
    match pySplit '(' op with
    | [operation, parameters] =>
      if operation = "clone" then
        parseLoop rest { st with cloneFlag := true } x y
      else if operation = "original" then
        let encoded := pyQuote (pyDropLast parameters)
        parseLoop rest
          { st with isOriginal := true, isDerived := false, isBase := false,
                    originalName := some encoded,
                    operations := st.operations ++ [op] } x y
      else if operation = "size" then
        let st := { st with isBase := false, isDerived := true, isResize := true }
        match pySplit ',' (pyDropLast parameters) with
        | [xs, ys] =>
          parseLoop rest { st with operations := st.operations ++ [op] }
            (.str xs) (.str ys)
        | _ => (st, x, y, some .valueError)
      else if operation = "crop" then
        let st := { st with isBase := false, isDerived := true }
        match pySplit ',' (pyDropLast parameters) with
        | [xs, ys, _, _] =>
          parseLoop rest { st with operations := st.operations ++ [op] }
            (.str xs) (.str ys)
        | _ => (st, x, y, some .valueError)
      else if operation = "thumbnail" then
        let st := { st with isBase := false, isDerived := true,
                            thumbnailPhantom := true }
        match pySplit ',' (pyDropLast parameters) with
        | [xs, ys, opts] =>
          parseLoop rest
            { st with liquid := pyHasChar opts 'l',
                      equalise := pyHasChar opts 'e',
                      sharpen := pyHasChar opts 's',
                      operations := st.operations ++ [op] } (.str xs) (.str ys)
        | _ => (st, x, y, some .valueError)
      else if operation = "convert" then
        parseLoop rest
          { st with isBase := false, isDerived := true, isOriginal := false,
                    isConvert := true, operations := st.operations ++ [op] } x y
      else if operation = "metadata" then
        parseLoop rest
          { st with isBase := false, isDerived := true, isOriginal := false,
                    isMetadata := true, operations := st.operations ++ [op] } x y
      else
        parseLoop rest st x y
    | _ => parseLoop rest st x y

/-- Model of `ImageName._parse_name(image_name, kind)`: split off the format suffix
(unless `kind` is supplied), split the head on `+`, run the operation loop.
`_image_size` is only assigned when the loop runs to completion; an early
return (no ops) or a swallowed exception leaves it untouched. -/
def parseName (imageName : String) (kind : Option String) (st : PyImageName) :
    PyImageName × Option PyError :=
  let hk : String × Option String :=
    match kind with
    | none => let he := splitext imageName; (he.1, some (he.2.data.drop 1).asString)
    | some k => (imageName, some k)
  let components := pySplit '+' hk.1
  let st := { st with baseName := some (components.headD ""),
                      imageKind := hk.2, isBase := true }
  if components.length ≤ 1 then (st, none)
  else
    match parseLoop components.tail st (.int 0) (.int 0) with
    | (st, x, y, none) => ({ st with imageSize := .pair x y }, none)
    | (st, _, _, some e) => (st, some e)

/-- Model of `ImageName.__init__(image_name, kind)`: initialise every field, then parse.
Any exception `_parse_name` raises is caught, printed and discarded (lines
110-115), so the constructor always returns the state reached by the parse. -/
def imageNameInit (imageName : Option String) (kind : Option String) :
    PyImageName :=
  let st : PyImageName := { imageKind := kind, imageNameStr := imageName }
  match imageName with
  | none => st
  | some s => (parseName s kind st).1

/-- The constructor as observed by a caller: it never raises. -/
def imageNameInitE (imageName : Option String) (kind : Option String) :
    Except PyError PyImageName :=
  .ok (imageNameInit imageName kind)

/-- Model of `ImageName.__str__`: base, then `+clone()` if the clone marker is set, then
the recorded operations; when there are none, an `+original(...)` op is
synthesised for originals; finally the format suffix. -/
def renderName (n : PyImageName) : String :=
  let s := pyFmtOS n.baseName
  let s := if n.cloneFlag then s ++ "+clone()" else s
  let s :=
    if n.operations ≠ [] then
      n.operations.foldl (fun acc op => acc ++ "+" ++ op) s
    else if n.originalName.isSome || n.isOriginal then
      s ++ "+original(" ++ pyFmtOS n.originalName ++ ")"
    else s
  s ++ "." ++ pyFmtOS n.imageKind

/-- The name-policy configuration fields read by the `apply_*` methods, with
the defaults from `Configuration.py`. -/
structure NameConfig where
  thumbnailDefaultSize : Option Int × Option Int := (some 50, some 50)
  thumbnailDefaultFormat : String := "jpg"
  thumbnailEqualise : Bool := true
  thumbnailLiquidResize : Bool := true
  thumbnailSharpen : Bool := true
  imageDefaultFormat : String := "jpg"
  deriving Repr, DecidableEq

/-- Model of `ImageName.apply_thumbnail(size, kind, **kwargs)`: sets the thumbnail
flags, resolves size and kind against the configuration defaults, resolves the
`equalise` / `sharpen` / `liquid` keyword overrides, and appends a
`thumbnail(x,y,opts)` operation with the option letters in `e`, `l`, `s`
order. -/
def applyThumbnail (cfg : NameConfig) (size : Option (Option Int × Option Int))
    (kind : Option String) (kwEqualise kwSharpen kwLiquid : Option Bool)
    (n : PyImageName) : PyImageName :=
  let n := { n with cloneFlag := false, isDerived := true, isThumbnail := true,
                    isBase := false }
  let sz := match size with
    | none => cfg.thumbnailDefaultSize
    | some (none, none) => cfg.thumbnailDefaultSize
    | some s => s
  let x := sz.1
  let y := sz.2
  let x := if x = none then y else x
  let y := if y = none then x else y
  let kind := kind.getD cfg.thumbnailDefaultFormat
  let eq := kwEqualise.getD cfg.thumbnailEqualise
  let sh := kwSharpen.getD cfg.thumbnailSharpen
  let lq := kwLiquid.getD cfg.thumbnailLiquidResize
  let encodedOptions :=
    (if eq then "e" else "") ++ (if lq then "l" else "") ++
    (if sh then "s" else "")
  let n := { n with
    sizeAttr := some (.pair (match x with | none => .pynone | some v => .int v)
                            (match y with | none => .pynone | some v => .int v)),
    imageKind := some kind, equalise := eq, sharpen := sh, liquid := lq,
    operations := n.operations ++
      ["thumbnail(" ++ pyFmtOI x ++ "," ++ pyFmtOI y ++ "," ++
       encodedOptions ++ ")"] }
  { n with imageNameStr := some (renderName n) }

/-- Model of `ImageName.apply_resize(size, kind)`: appends a `size(x,y)` operation; the
format is only changed when `kind` is supplied (otherwise a dead local picks up
the configured default). -/
def applyResize (size : Int × Int) (kind : Option String) (n : PyImageName) :
    PyImageName :=
  let n := { n with cloneFlag := false, isDerived := true, isBase := false,
                    isResize := true,
                    operations := n.operations ++
                      ["size(" ++ toString size.1 ++ "," ++ toString size.2 ++
                       ")"],
                    imageSize := .pair (.int size.1) (.int size.2) }
  let n := match kind with
    | some k => { n with imageKind := some k }
    | none => n
  { n with imageNameStr := some (renderName n) }

/-- Model of `ImageName.apply_crop(size, origin, kind)`: appends a
`crop(x,y,ox,oy)` operation. -/
def applyCrop (size origin : Int × Int) (kind : Option String)
    (n : PyImageName) : PyImageName :=
  let n := { n with cloneFlag := false, isDerived := true, isBase := false,
                    operations := n.operations ++
                      ["crop(" ++ toString size.1 ++ "," ++ toString size.2 ++
                       "," ++ toString origin.1 ++ "," ++ toString origin.2 ++
                       ")"],
                    cropSize := some (.pair (.int size.1) (.int size.2)),
                    cropOrigin := some (.pair (.int origin.1) (.int origin.2)) }
  let n := match kind with
    | some k => { n with imageKind := some k }
    | none => n
  let n := { n with imageNameStr := some (renderName n) }
  { n with imageSize := .pair (.int size.1) (.int size.2) }

/-- Model of `ImageName.apply_metadata(kind)`: replaces the whole operation list with a
single `metadata(kind)` op and clears `_image_size`. -/
def applyMetadata (kind : String) (n : PyImageName) : PyImageName :=
  let n := { n with cloneFlag := false, isDerived := true, isMetadata := true,
                    operations := ["metadata(" ++ kind ++ ")"],
                    imageKind := some kind, imageSize := .pynone }
  { n with imageNameStr := some (renderName n) }

/-- Model of `ImageName.apply_convert(kind)`: a no-op on an already-derived name (the
early return at line 537-538); otherwise appends `convert(kind)` and adopts the
new format.  Note the method never sets `_is_convert`. -/
def applyConvert (kind : Option String) (n : PyImageName) : PyImageName :=
  let n := { n with cloneFlag := false }
  if n.isDerived then n
  else
    let n := { n with isDerived := true,
                      operations := n.operations ++
                        ["convert(" ++ pyFmtOS kind ++ ")"],
                      imageKind := kind }
    { n with imageNameStr := some (renderName n) }

/-- Model of `ImageName.make_original(name)`: drops all operations and marks the name
as an original. -/
def makeOriginal (name : Option String) (n : PyImageName) : PyImageName :=
  let n := { n with cloneFlag := false, operations := [], isOriginal := true }
  let n := match name with
    | some v => { n with originalName := some v }
    | none => n
  { n with imageNameStr := some (renderName n) }

/-- The slice of an `ImageInstance` (with its `ImageHandle`) that the cache
layer reads: the rendered canonical name, the name-derived flags used by the
master, the handle's byte size, and `has_persistence()`. -/
structure PyImage where
  nameStr : String
  isOriginal : Bool := false
  baseName : Option String := none
  kind : Option String := none
  size : Nat := 0
  hasPersistence : Bool := false
  deriving Repr, DecidableEq

/-- Model of `Caches.CacheEntry`: size, `access_time`, the retention fields (default
`retain_until = 0`), and the referenced image. -/
structure CacheEntry where
  image : PyImage
  size : Nat
  accessTime : Int
  retainUntil : Option Int := some 0
  preferRetain : Bool := false
  mustRetainFlag : Bool := false
  deriving Repr, DecidableEq

/-- Model of `CacheEntry.must_retain()` exactly as written (`Caches.py` line 73):
`self._must_retain or (self._retain_until is not None and
self._retain_until < time.time())`.  Note the comparison direction: a
`retain_until` in the PAST makes the entry must-retain. -/
def mustRetain (e : CacheEntry) (now : Int) : Bool :=
  e.mustRetainFlag ||
    (match e.retainUntil with
     | some r => decide (r < now)
     | none => false)

/-- Model of `CacheEntry.has_persistence()`: delegates to the image handle. -/
def entryHasPersistence (e : CacheEntry) : Bool :=
  e.image.hasPersistence

/-- Model of `CacheEntry.set_retain_until(t)`: a non-`None` time already in the past is
replaced by `0` before being stored. -/
def setRetainUntil (e : CacheEntry) (retainTime : Option Int) (now : Int) :
    CacheEntry :=
  let rt := match retainTime with
    | some r => if r < now then some 0 else some r
    | none => none
  { e with retainUntil := rt }

/-- First-match lookup in an association list, modelling a Python dict read
(dict keys are unique, so at most one pair per key exists). -/
def alookup : List (String × CacheEntry) → String → Option CacheEntry
  | [], _ => none
  | (k, e) :: rest, name => if k = name then some e else alookup rest name

/-- Removal of the first pair with the given key (`del contents[name]`). -/
def aerase : List (String × CacheEntry) → String → List (String × CacheEntry)
  | [], _ => []
  | (k, e) :: rest, name =>
    if k = name then rest else (k, e) :: aerase rest name

/-- In-place update of `access_time` on the entry under `name`
(`self._contents[name].access_time = time.clock()`). -/
def aupdateTime : List (String × CacheEntry) → String → Int →
    List (String × CacheEntry)
  | [], _, _ => []
  | (k, e) :: rest, name, now =>
    if k = name then (k, { e with accessTime := now }) :: rest
    else (k, e) :: aupdateTime rest name now

/-- State of one `Caches.ImageCache` tier: the `_contents` index, the
configured bounds and the running `_size`.  `_hysterysis` is hard-coded to
`0.3` in `__init__` and appears as the constant `3/10` in `tClean`. -/
structure Tier where
  contents : List (String × CacheEntry) := []
  maxSize : Nat := 0
  maxElements : Nat := 0
  sizeUsed : Int := 0
  deriving Repr, DecidableEq

/-- Model of `ImageCache.contains(name)`. -/
def tContains (t : Tier) (name : String) : Bool :=
  (alookup t.contents name).isSome

/-- Model of `ImageCache.get(name)`: on a hit, refresh `access_time` and return the
entry's image; a `KeyError` is caught and yields `None`, leaving the tier
unchanged. -/
def tGet (t : Tier) (name : String) (now : Int) : Option PyImage × Tier :=
  match alookup t.contents name with
  | none => (none, t)
  | some e => (some e.image, { t with contents := aupdateTime t.contents name now })

/-- The value `ImageCache.add` hands back: always the Python bool `True` on
the paths that return (the oversize path raises before its `return False`,
see below), never `None`. -/
inductive PyRet where
  | pynone
  | bool (b : Bool)
  deriving Repr, DecidableEq

instance {ε α : Type} [DecidableEq ε] [DecidableEq α] :
    DecidableEq (Except ε α) := fun x y =>
  match x, y with
  | .error a, .error b =>
    if h : a = b then isTrue (by rw [h]) else isFalse (by simp [h])
  | .ok a, .ok b =>
    if h : a = b then isTrue (by rw [h]) else isFalse (by simp [h])
  | .error _, .ok _ => isFalse (by simp)
  | .ok _, .error _ => isFalse (by simp)

/-- Model of `ImageCache.add(name, element, retain, must_retain)` for the memory and
local-file tiers (`Caches.py` lines 300-351):

* an already-present name returns `True` unchanged;
* when `max_size != 0` and the element's size exceeds `max_size * 0.1` the
  method evaluates `self._class__.__name__` while formatting its log message —
  an attribute that does not exist — so this path raises `AttributeError`
  before ever reaching its `return False` (the float product is modelled
  exactly as `size > max_size / 10`; no use in this file sits on the rounding
  boundary of `0.1`);
* otherwise the entry is inserted and `_size` grows, under the lock, and
  `True` is returned at line 340.  The over-bound check and `_clean()` call at
  lines 347-351 sit after that `return` and are unreachable: `add` never
  triggers a clean. -/
def tAdd (t : Tier) (name : String) (img : PyImage)
    (retain mustR : Bool) (now : Int) : Except PyError PyRet × Tier :=
  if tContains t name then (.ok (.bool true), t)
  else if t.maxSize ≠ 0 ∧ 10 * img.size > t.maxSize then
    (.error .attributeError, t)
  else
    let e : CacheEntry := { image := img, size := img.size, accessTime := now,
                            preferRetain := retain, mustRetainFlag := mustR }
    (.ok (.bool true),
     { t with contents := t.contents ++ [(name, e)],
              sizeUsed := t.sizeUsed + img.size })

/-- Model of `ImageCache._async_write_back(name)`: looks the entry up, then evaluates
`entry[1].must_retain` — but a `CacheEntry` is not subscriptable, so a present
entry raises `AttributeError` (only `KeyError` is caught, returning `False`).
The method reaches neither next-tier call and never mutates this tier. -/
def asyncWriteBack (t : Tier) (name : String) : Except PyError Bool :=
  match alookup t.contents name with
  | some _ => .error .attributeError
  | none => .ok false

/-- Model of `ImageCache.delete(name)` for the memory and local-file tiers: a missing
name is a caught `KeyError` (returns `False`); a present entry with
`must_retain()` first calls `_async_write_back`, which raises before any
mutation; otherwise `_size` is decremented, the backing bytes are dropped
(`_remove_actual` touches no tier state on these variants) and the entry is
removed. -/
def tDelete (t : Tier) (name : String) (now : Int) : Except PyError Bool × Tier :=
  match alookup t.contents name with
  | none => (.ok false, t)
  | some e =>
    if mustRetain e now then (.error .attributeError, t)
    else
      (.ok true,
       { t with contents := aerase t.contents name,
                sizeUsed := t.sizeUsed - e.size })

/-- The three-way split at the top of `ImageCache._clean` (lines 378-389),
preserving the sorted order within each list: entries that are must-retain
without a persistent copy go to the write-back list; the rest go to the
retained or kill list by `should_retain()`. -/
def partitionClean (now : Int) : List (String × CacheEntry) →
    List (String × CacheEntry) × List (String × CacheEntry) ×
      List (String × CacheEntry)
  | [] => ([], [], [])
  | p :: rest =>
    let r := partitionClean now rest
    if !(mustRetain p.2 now && !entryHasPersistence p.2) then
      if p.2.preferRetain then (r.1, r.2.1, p :: r.2.2)
      else (p :: r.1, r.2.1, r.2.2)
    else (r.1, p :: r.2.1, r.2.2)

/-- Result of one eviction walk: the raised error if any, the remaining
`to_delete` and `size_to_delete` counters, and the tier state reached. -/
structure CleanLoopRes where
  err : Option PyError
  td : Int
  std : Int
  st : Tier
  deriving Repr

/-- The kill-list walk of `_clean` (lines 413-419), also reused verbatim for
the retained list (lines 438-444): while both counters allow and entries
remain, delete and decrement by the snapshot entry's size; an exception from
`delete` propagates with the state reached so far. -/
def evictLoop (now : Int) : List (String × CacheEntry) → Int → Int → Tier →
    CleanLoopRes
  | [], td, std, t => ⟨none, td, std, t⟩
  | (k, e) :: rest, td, std, t =>
    if td > 0 ∧ std ≥ 0 then
      match tDelete t k now with
      | (.error er, t') => ⟨some er, td, std, t'⟩
      | (.ok true, t') => evictLoop now rest (td - 1) (std - (e.size : Int)) t'
      | (.ok false, t') => evictLoop now rest td std t'
    else ⟨none, td, std, t⟩

/-- The write-back-list walk of `_clean` (lines 424-431): each iteration first
calls `_async_write_back` (which raises `AttributeError` whenever the entry is
still present) and only then would delete. -/
def persistLoop (now : Int) : List (String × CacheEntry) → Int → Int → Tier →
    CleanLoopRes
  | [], td, std, t => ⟨none, td, std, t⟩
  | (k, e) :: rest, td, std, t =>
    if td > 0 ∧ std ≥ 0 then
      match asyncWriteBack t k with
      | .error er => ⟨some er, td, std, t⟩
      | .ok _ =>
        match tDelete t k now with
        | (.error er, t') => ⟨some er, td, std, t'⟩
        | (.ok true, t') => persistLoop now rest (td - 1) (std - (e.size : Int)) t'
        | (.ok false, t') => persistLoop now rest td std t'
    else ⟨none, td, std, t⟩

/-- Body of `ImageCache._clean()` after the snapshot: walk the kill list, the
write-back list and the retained list with the two early returns (lines
421-422 and 433-434), then run the closing sanity check, whose failure raises
through `_handle_clean_failure` — which on the memory tier is the base-class
version that raises `RepositoryError`. -/
def tCleanCore (t : Tier) (now : Int)
    (kill pwb ret : List (String × CacheEntry)) (toDelete sizeToDelete : Int) :
    Option PyError × Tier :=
  match evictLoop now kill toDelete sizeToDelete t with
  | ⟨some er, _, _, t'⟩ => (some er, t')
  | ⟨none, td, std, t'⟩ =>
    if std ≤ 0 ∧ td ≤ 0 then (none, t')
    else
      match persistLoop now pwb td std t' with
      | ⟨some er, _, _, t2⟩ => (some er, t2)
      | ⟨none, td2, std2, t2⟩ =>
        if std2 ≤ 0 ∧ td2 ≤ 0 then (none, t2)
        else
          match evictLoop now ret td2 std2 t2 with
          | ⟨some er, _, _, t3⟩ => (some er, t3)
          | ⟨none, _, _, t3⟩ =>
            if t3.sizeUsed > (t3.maxSize : Int) ∨
               t3.maxElements < t3.contents.length
            then (some .repositoryError, t3)
            else (none, t3)

/-- Model of `ImageCache._clean()` for the memory tier: snapshot sorted ascending by
`access_time` (Python's stable `sorted`), partition, compute the targets with
the hard-coded hysteresis 0.3 (`int(x * 0.3)` modelled as `x * 3 / 10`; all
uses in this file are far from the float-rounding boundary), then run the
eviction walks. -/
def tClean (t : Tier) (now : Int) : Option PyError × Tier :=
  let sorted := List.insertionSort
    (fun a b => a.2.accessTime ≤ b.2.accessTime) t.contents
  let part := partitionClean now sorted
  let toDelete : Int :=
    ((min (t.maxElements * 3 / 10) t.contents.length : Nat) : Int) + 1
  let sizeToDelete : Int := min ((t.maxSize * 3 / 10 : Nat) : Int) t.sizeUsed
  tCleanCore t now part.1 part.2.1 part.2.2 toDelete sizeToDelete

/-- Model of the `Caches.CacheMaster` state: the tier hierarchy in probe order plus the
`_base_images` index (modelled as already built; the source builds it lazily
by scanning the tiers). -/
structure Master where
  memory : Tier := {}
  fileC : Tier := {}
  pcache : Tier := {}
  pstore : Tier := {}
  baseImages : List (Option String × PyImage) := []
  deriving Repr, DecidableEq

/-- First-match lookup in the `_base_images` index. -/
def blookup : List (Option String × PyImage) → Option String → Option PyImage
  | [], _ => none
  | (k, v) :: rest, key => if k = key then some v else blookup rest key

/-- Overwriting update of the `_base_images` index
(`self._get_base_images()[image.name.base_name()] = image`). -/
def bupdate : List (Option String × PyImage) → Option String → PyImage →
    List (Option String × PyImage)
  | [], key, v => [(key, v)]
  | (k, w) :: rest, key, v =>
    if k = key then (k, v) :: rest else (k, w) :: bupdate rest key v

/-- Model of `CacheMaster._get_entry` / `get`: probe memory, local file, remote cache,
remote store in order and return the first hit. -/
def masterGet (m : Master) (name : String) (now : Int) :
    Option PyImage × Master :=
  match tGet m.memory name now with
  | (some img, mem') => (some img, { m with memory := mem' })
  | (none, _) =>
    match tGet m.fileC name now with
    | (some img, f') => (some img, { m with fileC := f' })
    | (none, _) =>
      match tGet m.pcache name now with
      | (some img, c') => (some img, { m with pcache := c' })
      | (none, _) =>
        match tGet m.pstore name now with
        | (some img, s') => (some img, { m with pstore := s' })
        | (none, _) => (none, m)

/-- Model of `CacheMaster.add(name, image, retain, must_retain)` (`Caches.py` lines
1307-1332): call the memory tier's `add`, then fall through to the file and
remote-cache tiers only `if ref is None` — but the tier `add` returns a bool
(`True`) or raises, never `None`, so the fall-through branches and the final
`RepositoryFailure("Request exceeds store capacity", 507)` are unreachable.
On success the `_base_images` index is updated for originals. -/
def masterAdd (m : Master) (name : String) (img : PyImage)
    (retain mustR : Bool) (now : Int) : Except PyError PyRet × Master :=
  match tAdd m.memory name img retain mustR now with
  | (.error e, mem') => (.error e, { m with memory := mem' })
  | (.ok ref, mem') =>
    let m := { m with memory := mem' }
    match (if ref = .pynone then some (tAdd m.fileC name img retain mustR now)
           else none) with
    | some (.error e, f') => (.error e, { m with fileC := f' })
    | some (.ok ref2, f') =>
      let m := { m with fileC := f' }
      match (if ref2 = .pynone then
               some (tAdd m.pcache name img retain mustR now)
             else none) with
      | some (.error e, c') => (.error e, { m with pcache := c' })
      | some (.ok ref3, c') =>
        let m := { m with pcache := c' }
        if ref3 = .pynone then (.error .repositoryFailure, m)
        else
          (.ok ref3,
           if img.isOriginal then
             { m with baseImages := bupdate m.baseImages img.baseName img }
           else m)
      | none =>
        (.ok ref2,
         if img.isOriginal then
           { m with baseImages := bupdate m.baseImages img.baseName img }
         else m)
    | none =>
      (.ok ref,
       if img.isOriginal then
         { m with baseImages := bupdate m.baseImages img.baseName img }
       else m)

/-- Model of `CacheMaster.get_as_defined(definition_name)` (`Caches.py` lines
1257-1292).  The pixel back end is abstracted as `derive`, standing for
`base_image.as_defined(definition_name)`.  On a hit the cached image is
returned unchecked.  On a miss: locate the base image (a `KeyError` raises
`RepositoryError`), force a `convert` op onto a non-derived name whose format
differs from the base's, derive, `add` the result to the hierarchy, and only
then compare `str(new_image.name)` with `str(definition_name)`, raising
`RepositoryFailure` on mismatch. -/
def getAsDefined (m : Master) (derive : PyImageName → PyImage)
    (nm : PyImageName) (now : Int) : Except PyError PyImage × Master :=
  match masterGet m (renderName nm) now with
  | (some img, m') => (.ok img, m')
  | (none, m') =>
    match blookup m'.baseImages nm.baseName with
    | none => (.error .repositoryError, m')
    | some baseImg =>
      let nm := if nm.isDerived = false ∧ nm.imageKind ≠ baseImg.kind then
                  applyConvert nm.imageKind nm
                else nm
      let newImage := derive nm
      match masterAdd m' (renderName nm) newImage false false now with
      | (.error e, m2) => (.error e, m2)
      | (.ok _, m2) =>
        if newImage.nameStr ≠ renderName nm then (.error .repositoryFailure, m2)
        else (.ok newImage, m2)

/-- An exact, unnormalised fraction: the float arithmetic of the thumbnail
box computation modelled without rounding (every quantity involved is a ratio
of small integers, so the double-precision results coincide).  The comparison
and truncation operations below are used only on fractions whose numerator
and denominator are positive. -/
structure Frac where
  num : Int
  den : Int
  deriving Repr, DecidableEq

/-- Embed a natural number. -/
def fofNat (n : Nat) : Frac := ⟨n, 1⟩

/-- Fraction division. -/
def fdiv (a b : Frac) : Frac := ⟨a.num * b.den, a.den * b.num⟩

/-- Fraction multiplication. -/
def fmul (a b : Frac) : Frac := ⟨a.num * b.num, a.den * b.den⟩

/-- Strict comparison by cross-multiplication (valid for positive
denominators, the only case arising here). -/
def flt (a b : Frac) : Bool := a.num * b.den < b.num * a.den

/-- Equality of the represented values by cross-multiplication. -/
def feq (a b : Frac) : Bool := a.num * b.den = b.num * a.den

/-- Python `int()` on a positive fraction: truncation toward zero. -/
def ftrunc (a : Frac) : Int := a.num / a.den

/-- The target-box computation of `ImageHandle.thumbnail` (`ImageType.py`
lines 270-317), returning the computed `(x_size, y_size)` and the final value
of `try_liquid`.  `liquidOpt` models the `kwargs` entry for `liquid`
(`"liquid" in kwargs and kwargs["liquid"]` is `liquidOpt.getD false`);
`liquidLimit` is `self._configuration.thumbnail_liquid_cutin_ratio`, whose
configured default is 5.0. -/
def thumbnailBox (boxW boxH imgW imgH : Nat) (liquidOpt : Option Bool)
    (liquidLimit : Frac) : (Int × Int) × Bool :=
  let dar := fdiv (fofNat boxW) (fofNat boxH)
  let iar := fdiv (fofNat imgW) (fofNat imgH)
  let one : Frac := ⟨1, 1⟩
  let tryLiquid := true
  let s1 : Bool × Frac :=
    if flt (fdiv dar iar) (fdiv one liquidLimit) then
      (liquidOpt.getD false, liquidLimit)
    else (tryLiquid, iar)
  let s2 : Bool × Frac :=
    if flt liquidLimit (fdiv dar s1.2) then
      (liquidOpt.getD false, fdiv one liquidLimit)
    else s1
  let dims : Int × Int :=
    if flt s2.2 dar then (ftrunc (fmul (fofNat boxW) s2.2), (boxH : Int))
    else ((boxW : Int), ftrunc (fdiv (fofNat boxH) s2.2))
  (dims, s2.1)

/-- One externally-invokable operation on a single tier, with the time at
which it runs. -/
inductive TierOp where
  | addOp (name : String) (img : PyImage) (retain mustR : Bool)
  | getOp (name : String)
  | delOp (name : String)
  deriving Repr

/-- Run one tier operation, keeping the state the Python object is left in
whether the call returns or raises. -/
def runOp (t : Tier) (op : TierOp) (now : Int) : Tier :=
  match op with
  | .addOp name img retain mustR => (tAdd t name img retain mustR now).2
  | .getOp name => (tGet t name now).2
  | .delOp name => (tDelete t name now).2

/-- Run a sequence of timestamped tier operations. -/
def runOps (t : Tier) : List (TierOp × Int) → Tier
  | [] => t
  | (op, now) :: rest => runOps (runOp t op now) rest

/-- The size-accounting invariant of a tier: `_size` equals the sum of the
`size` fields of the entries in `_contents`. -/
def sizeInv (t : Tier) : Prop :=
  t.sizeUsed = (t.contents.map fun p => (p.2.size : Int)).sum

instance (t : Tier) : Decidable (sizeInv t) := by
  unfold sizeInv; infer_instance

/-! Helper lemmas about the association-list primitives and the eviction
loops. -/

theorem sum_sizes_aupdateTime (l : List (String × CacheEntry)) (name : String)
    (now : Int) :
    ((aupdateTime l name now).map fun p => (p.2.size : Int)).sum =
      (l.map fun p => (p.2.size : Int)).sum := by
  induction l with
  | nil => rfl
  | cons p rest ih =>
    obtain ⟨k, e⟩ := p
    by_cases h : k = name <;> simp [aupdateTime, h, ih]

theorem sum_sizes_aerase (l : List (String × CacheEntry)) (name : String)
    (e : CacheEntry) (h : alookup l name = some e) :
    ((aerase l name).map fun p => (p.2.size : Int)).sum =
      (l.map fun p => (p.2.size : Int)).sum - e.size := by
  induction l with
  | nil => simp [alookup] at h
  | cons p rest ih =>
    obtain ⟨k, e'⟩ := p
    by_cases hk : k = name
    · simp only [alookup, if_pos hk] at h
      obtain rfl : e' = e := Option.some_injective _ h
      simp [aerase, hk]
    · simp only [alookup, if_neg hk] at h
      simp [aerase, hk, ih h]
      ring

theorem sizeInv_tAdd (t : Tier) (name : String) (img : PyImage)
    (retain mustR : Bool) (now : Int) (h : sizeInv t) :
    sizeInv (tAdd t name img retain mustR now).2 := by
  unfold tAdd
  by_cases hc : tContains t name
  · simpa [hc] using h
  · by_cases ho : t.maxSize ≠ 0 ∧ 10 * img.size > t.maxSize
    · simpa [hc, ho] using h
    · unfold sizeInv at h ⊢
      simp [hc, ho, h]

theorem sizeInv_tGet (t : Tier) (name : String) (now : Int) (h : sizeInv t) :
    sizeInv (tGet t name now).2 := by
  unfold tGet
  cases he : alookup t.contents name
  · simpa using h
  · unfold sizeInv at h ⊢
    simpa [sum_sizes_aupdateTime] using h

theorem sizeInv_tDelete (t : Tier) (name : String) (now : Int)
    (h : sizeInv t) : sizeInv (tDelete t name now).2 := by
  unfold tDelete
  cases he : alookup t.contents name with
  | none => simpa using h
  | some e =>
    by_cases hm : mustRetain e now
    · simpa [hm] using h
    · unfold sizeInv at h ⊢
      simp [hm, sum_sizes_aerase t.contents name e he, h]

theorem alookup_mem (l : List (String × CacheEntry)) (name : String)
    (e : CacheEntry) (h : alookup l name = some e) : (name, e) ∈ l := by
  induction l with
  | nil => simp [alookup] at h
  | cons p rest ih =>
    obtain ⟨k, e'⟩ := p
    by_cases hk : k = name
    · simp only [alookup, if_pos hk] at h
      obtain rfl : e' = e := Option.some_injective _ h
      subst hk
      exact List.mem_cons_self _ _
    · simp only [alookup, if_neg hk] at h
      exact List.mem_cons_of_mem _ (ih h)

theorem alookup_eq_of_mem_nodup (l : List (String × CacheEntry))
    (hnd : (l.map Prod.fst).Nodup) (name : String) (e : CacheEntry)
    (hm : (name, e) ∈ l) : alookup l name = some e := by
  induction l with
  | nil => simp at hm
  | cons p rest ih =>
    obtain ⟨k, e'⟩ := p
    simp only [List.map_cons, List.nodup_cons] at hnd
    rcases List.mem_cons.mp hm with heq | hrest
    · obtain ⟨rfl, rfl⟩ := Prod.mk.injEq .. ▸ heq
      simp [alookup]
    · have hk : k ≠ name := by
        rintro rfl
        exact hnd.1 (List.mem_map.mpr ⟨(k, e), hrest, rfl⟩)
      simp [alookup, hk, ih hnd.2 hrest]

theorem aerase_ne (l : List (String × CacheEntry)) (k name : String)
    (h : k ≠ name) : alookup (aerase l k) name = alookup l name := by
  induction l with
  | nil => rfl
  | cons p rest ih =>
    obtain ⟨k', e⟩ := p
    by_cases hk : k' = k
    · subst hk
      simp [aerase, alookup, h]
    · by_cases hn : k' = name <;>
        simp [aerase, alookup, hk, hn, ih, Ne.symm h]

theorem tDelete_pres (t : Tier) (k name : String) (now : Int) (h : k ≠ name) :
    alookup ((tDelete t k now).2).contents name = alookup t.contents name := by
  unfold tDelete
  cases he : alookup t.contents k with
  | none => rfl
  | some e =>
    by_cases hm : mustRetain e now
    · simp [hm]
    · simp [hm, aerase_ne t.contents k name h]

theorem evictLoop_pres (now : Int) (l : List (String × CacheEntry))
    (name : String) (h : ∀ p ∈ l, p.1 ≠ name) :
    ∀ (td std : Int) (t : Tier),
      alookup ((evictLoop now l td std t).st).contents name =
        alookup t.contents name := by
  induction l with
  | nil => intro td std t; rfl
  | cons p rest ih =>
    intro td std t
    obtain ⟨k, e⟩ := p
    have hk : k ≠ name := h (k, e) (List.mem_cons_self _ _)
    have hrest : ∀ p ∈ rest, p.1 ≠ name := fun p hp =>
      h p (List.mem_cons_of_mem _ hp)
    by_cases hg : td > 0 ∧ std ≥ 0
    · rw [show evictLoop now ((k, e) :: rest) td std t =
          (match tDelete t k now with
           | (.error er, t') => ⟨some er, td, std, t'⟩
           | (.ok true, t') => evictLoop now rest (td - 1) (std - (e.size : Int)) t'
           | (.ok false, t') => evictLoop now rest td std t') from by
            simp [evictLoop, hg]]
      cases hd : tDelete t k now with
      | mk r t' =>
        have hpre : alookup t'.contents name = alookup t.contents name := by
          have := tDelete_pres t k name now hk
          rwa [hd] at this
        cases r with
        | error er => simpa using hpre
        | ok b =>
          cases b
          · simpa [ih hrest td std t'] using hpre
          · simpa [ih hrest (td - 1) (std - (e.size : Int)) t'] using hpre
    · simp [evictLoop, hg]

theorem persistLoop_st (now : Int) (l : List (String × CacheEntry)) :
    ∀ (td std : Int) (t : Tier), (persistLoop now l td std t).st = t := by
  induction l with
  | nil => intro td std t; rfl
  | cons p rest ih =>
    intro td std t
    obtain ⟨k, e⟩ := p
    by_cases hg : td > 0 ∧ std ≥ 0
    · cases hw : alookup t.contents k with
      | some e' => simp [persistLoop, hg, asyncWriteBack, hw]
      | none =>
        have hdel : tDelete t k now = (.ok false, t) := by
          simp [tDelete, hw]
        simp [persistLoop, hg, asyncWriteBack, hw, hdel, ih]
    · simp [persistLoop, hg]

theorem partitionClean_kill_mem (now : Int)
    (l : List (String × CacheEntry)) (p : String × CacheEntry)
    (hp : p ∈ (partitionClean now l).1) :
    p ∈ l ∧ (mustRetain p.2 now && !entryHasPersistence p.2) = false := by
  induction l with
  | nil => simp [partitionClean] at hp
  | cons q rest ih =>
    by_cases hu : (mustRetain q.2 now && !entryHasPersistence q.2) = false
    · by_cases hr : q.2.preferRetain
      · simp only [partitionClean, hu, hr] at hp
        simp only [Bool.not_eq_false] at hu
        rcases ih hp with ⟨hm, hpred⟩
        exact ⟨List.mem_cons_of_mem _ hm, hpred⟩
      · simp only [partitionClean, hu, hr] at hp
        simp only [Bool.not_eq_false] at hu
        rcases List.mem_cons.mp hp with rfl | hmem
        · exact ⟨List.mem_cons_self _ _, by simpa using hu⟩
        · rcases ih hmem with ⟨hm, hpred⟩
          exact ⟨List.mem_cons_of_mem _ hm, hpred⟩
    · simp only [partitionClean, hu] at hp
      rcases ih hp with ⟨hm, hpred⟩
      exact ⟨List.mem_cons_of_mem _ hm, hpred⟩

theorem partitionClean_retained_mem (now : Int)
    (l : List (String × CacheEntry)) (p : String × CacheEntry)
    (hp : p ∈ (partitionClean now l).2.2) :
    p ∈ l ∧ (mustRetain p.2 now && !entryHasPersistence p.2) = false := by
  induction l with
  | nil => simp [partitionClean] at hp
  | cons q rest ih =>
    by_cases hu : (mustRetain q.2 now && !entryHasPersistence q.2) = false
    · by_cases hr : q.2.preferRetain
      · simp only [partitionClean, hu, hr] at hp
        simp only [Bool.not_eq_false] at hu
        rcases List.mem_cons.mp hp with rfl | hmem
        · exact ⟨List.mem_cons_self _ _, by simpa using hu⟩
        · rcases ih hmem with ⟨hm, hpred⟩
          exact ⟨List.mem_cons_of_mem _ hm, hpred⟩
      · simp only [partitionClean, hu, hr] at hp
        simp only [Bool.not_eq_false] at hu
        rcases ih hp with ⟨hm, hpred⟩
        exact ⟨List.mem_cons_of_mem _ hm, hpred⟩
    · simp only [partitionClean, hu] at hp
      rcases ih hp with ⟨hm, hpred⟩
      exact ⟨List.mem_cons_of_mem _ hm, hpred⟩

theorem tCleanCore_pres (t : Tier) (now : Int)
    (kill pwb ret : List (String × CacheEntry)) (toDelete sizeToDelete : Int)
    (name : String) (e : CacheEntry)
    (hkill : ∀ p ∈ kill, p.1 ≠ name) (hret : ∀ p ∈ ret, p.1 ≠ name)
    (hl : alookup t.contents name = some e) :
    alookup (tCleanCore t now kill pwb ret toDelete sizeToDelete).2.contents
      name = some e := by
  unfold tCleanCore
  rcases hE1 : evictLoop now kill toDelete sizeToDelete t with ⟨err1, td1, std1, t1⟩
  have h1 : alookup t1.contents name = some e := by
    have hpr := evictLoop_pres now kill name hkill toDelete sizeToDelete t
    rw [hE1] at hpr
    exact hpr.trans hl
  cases err1 with
  | some er => simpa using h1
  | none =>
    by_cases hstop1 : std1 ≤ 0 ∧ td1 ≤ 0
    · simpa [hstop1] using h1
    · rcases hE2 : persistLoop now pwb td1 std1 t1 with ⟨err2, td2, std2, t2⟩
      have h2 : alookup t2.contents name = some e := by
        have hst := persistLoop_st now pwb td1 std1 t1
        rw [hE2] at hst
        rw [show t2 = t1 from hst]
        exact h1
      cases err2 with
      | some er => simpa [hstop1, hE2] using h2
      | none =>
        by_cases hstop2 : std2 ≤ 0 ∧ td2 ≤ 0
        · simpa [hstop1, hE2, hstop2] using h2
        · rcases hE3 : evictLoop now ret td2 std2 t2 with ⟨err3, td3, std3, t3⟩
          have h3 : alookup t3.contents name = some e := by
            have hpr := evictLoop_pres now ret name hret td2 std2 t2
            rw [hE3] at hpr
            exact hpr.trans h2
          cases err3 with
          | some er => simpa [hstop1, hE2, hstop2, hE3] using h3
          | none =>
            by_cases hfin : t3.sizeUsed > (t3.maxSize : Int) ∨
                t3.maxElements < t3.contents.length
            · simpa [hstop1, hE2, hstop2, hE3, hfin] using h3
            · simpa [hstop1, hE2, hstop2, hE3, hfin] using h3

/-! The claim theorems. -/

/-- Claim C1: parsing the rendered canonical string of a Name built by the
derivation operations yields a Name with equal base, operation list, format
and derived predicates.  Refuted at the failing input: for the thumbnail
built from `abc.jpg` (rendered `abc+thumbnail(50,50,els).jpg`) the parse sets
the attribute `_thumbnail` instead of `_is_thumbnail` (`ImageNames.py` line
242), so `is_thumbnail` comes back `False`; likewise `apply_convert` never
sets `_is_convert` while the parse of a `convert` op does, so `is_convert`
flips from `False` to `True` on the round trip.  Base, operation list and
format do round-trip on these inputs. -/
theorem parse_render_loses_thumbnail_flag :
    let n : PyImageName := applyThumbnail {} none none none none none
      (imageNameInit (some "abc.jpg") none)
    let p : PyImageName :=
      imageNameInit (some "abc+thumbnail(50,50,els).jpg") none
    let c : PyImageName :=
      applyConvert (some "png") (imageNameInit (some "abc.jpg") none)
    renderName n = "abc+thumbnail(50,50,els).jpg" ∧
    n.isThumbnail = true ∧ p.isThumbnail = false ∧
    p.thumbnailPhantom = true ∧
    p.operations = n.operations ∧ p.baseName = n.baseName ∧
    p.imageKind = n.imageKind ∧
    renderName c = "abc+convert(png).png" ∧
    c.isConvert = false ∧
    (imageNameInit (some "abc+convert(png).png") none).isConvert = true := by
  decide

/-- Claim C2: an operation name outside the known set should make parsing fail
(`MalformedName`) rather than be silently dropped.  Refuted: `_parse_name`
prints and `continue`s on an unknown op (`ImageNames.py` lines 258-260), so
parsing `base+bogus(1).jpg` raises nothing, leaves the operation list empty,
and the bogus op vanishes from the canonical rendering. -/
theorem unknown_op_parse_succeeds_and_drops_op :
    (parseName "base+bogus(1).jpg" none
      { imageNameStr := some "base+bogus(1).jpg" }).2 = none ∧
    (imageNameInit (some "base+bogus(1).jpg") none).operations = [] ∧
    (imageNameInit (some "base+bogus(1).jpg") none).baseName = some "base" ∧
    renderName (imageNameInit (some "base+bogus(1).jpg") none) = "base.jpg" := by
  decide

/-- Claim C10: the `ImageName` constructor is total at the public interface —
every exception `_parse_name` raises is caught and swallowed, and the object
reflects exactly the prefix parsed up to the failure.  Confirmed: the
constructor always returns the parse state (first conjunct, for every input),
including on an input whose second op aborts the parse with a `ValueError`
after its first op was recorded (remaining conjuncts). -/
theorem image_name_constructor_total :
    (∀ s kind, imageNameInitE (some s) kind =
      .ok ((parseName s kind
        { imageKind := kind, imageNameStr := some s }).1)) ∧
    (parseName "b+crop(1,2,3,4)+size(9).jpg" none
      { imageNameStr := some "b+crop(1,2,3,4)+size(9).jpg" }).2 =
        some .valueError ∧
    (imageNameInit (some "b+crop(1,2,3,4)+size(9).jpg") none).operations =
      ["crop(1,2,3,4)"] ∧
    (imageNameInit (some "b+crop(1,2,3,4)+size(9).jpg") none).isResize =
      true :=
  ⟨fun _ _ => rfl, by decide, by decide, by decide⟩

/-- Claim C7: `must_retain` should hold exactly for `permanent` entries or a
`retain_until` strictly in the future.  Refuted: the comparison at
`Caches.py` line 73 is `retain_until < time.time()`, so a fresh entry (whose
default `retain_until` is `0`, in the past) is must-retain while an entry
whose `retain_until` lies in the future is not. -/
theorem must_retain_comparison_inverted :
    let eFresh : CacheEntry :=
      { image := { nameStr := "x.jpg" }, size := 1, accessTime := 0 }
    mustRetain eFresh 1000 = true ∧
    eFresh.mustRetainFlag = false ∧ eFresh.retainUntil = some 0 ∧
    (setRetainUntil eFresh (some 2000) 1000).retainUntil = some 2000 ∧
    mustRetain (setRetainUntil eFresh (some 2000) 1000) 1000 = false := by
  decide

/-- Claim C3: an artifact above 10% of the memory tier's `size_max` should be
declined by the memory tier and placed in the local-file tier, with
`CapacityExceeded` only if no tier accepts.  Refuted: the oversize path of
`ImageCache.add` raises `AttributeError` (the `self._class__` typo in its log
call) before its `return False`, and `CacheMaster.add` tests `ref is None` —
which a bool never is — so the error propagates, nothing reaches the
local-file tier, and the `RepositoryFailure` branch is unreachable. -/
theorem master_add_oversize_raises_without_fallthrough :
    let m : Master := { memory := { maxSize := 1000000 } }
    let r := masterAdd m "big.jpg"
      { nameStr := "big.jpg", size := 200000 } false false 1
    r.1 = .error .attributeError ∧
    r.2.memory.contents = [] ∧ r.2.memory.sizeUsed = 0 ∧
    r.2.fileC.contents = [] ∧ r.2.pcache.contents = [] := by
  decide

/-- Claim C4: a single eviction pass never removes an entry that is
must-retain and has no persistent copy.  Confirmed: such an entry lands on
the write-back list, the kill and retained walks only delete keys of their
own lists (and a delete that would touch a must-retain entry raises before
mutating), and the write-back walk raises in `_async_write_back` before its
delete — so the entry is still present in `_contents` when `_clean` returns
or raises. -/
theorem eviction_preserves_unsafe_entries (t : Tier) (now : Int)
    (name : String) (e : CacheEntry)
    (hnd : (t.contents.map Prod.fst).Nodup)
    (hl : alookup t.contents name = some e)
    (hmr : mustRetain e now = true)
    (hnp : entryHasPersistence e = false) :
    alookup (tClean t now).2.contents name = some e := by
  have uniq : ∀ p ∈ t.contents, p.1 = name → p.2 = e := by
    rintro ⟨k, e'⟩ hp hpn
    dsimp at hpn
    subst hpn
    have hlk := alookup_eq_of_mem_nodup t.contents hnd k e' hp
    exact Option.some_injective _ (hlk.symm.trans hl)
  have hperm := List.perm_insertionSort
    (fun a b : String × CacheEntry => a.2.accessTime ≤ b.2.accessTime)
    t.contents
  have hkill : ∀ p ∈ (partitionClean now (List.insertionSort
      (fun a b : String × CacheEntry => a.2.accessTime ≤ b.2.accessTime)
      t.contents)).1, p.1 ≠ name := by
    intro p hp hpn
    obtain ⟨hmem, hpred⟩ := partitionClean_kill_mem now _ p hp
    have hpe : p.2 = e := uniq p (hperm.mem_iff.mp hmem) hpn
    rw [hpe, hmr, hnp] at hpred
    simp at hpred
  have hret : ∀ p ∈ (partitionClean now (List.insertionSort
      (fun a b : String × CacheEntry => a.2.accessTime ≤ b.2.accessTime)
      t.contents)).2.2, p.1 ≠ name := by
    intro p hp hpn
    obtain ⟨hmem, hpred⟩ := partitionClean_retained_mem now _ p hp
    have hpe : p.2 = e := uniq p (hperm.mem_iff.mp hmem) hpn
    rw [hpe, hmr, hnp] at hpred
    simp at hpred
  exact tCleanCore_pres t now _ _ _ _ _ name e hkill hret hl

/-- The must-retain, non-persistent entry of the C4 witness tier. -/
def c4Entry : CacheEntry :=
  { image := { nameStr := "B.jpg" }, size := 1, accessTime := 2,
    retainUntil := none, mustRetainFlag := true }

/-- A five-entry memory tier over its element bound, whose clean genuinely
evicts (its oldest deletable entry goes) while `c4Entry` must survive. -/
def c4Tier : Tier :=
  { contents :=
      [("A", { image := { nameStr := "A" }, size := 1, accessTime := 1,
               retainUntil := none }),
       ("B", c4Entry),
       ("C", { image := { nameStr := "C" }, size := 1, accessTime := 3,
               retainUntil := none }),
       ("D", { image := { nameStr := "D" }, size := 1, accessTime := 4,
               retainUntil := none }),
       ("E", { image := { nameStr := "E" }, size := 1, accessTime := 5,
               retainUntil := none })],
    maxElements := 4, sizeUsed := 5 }

/-- Witness for C4 at a concrete tier state. -/
theorem eviction_preserves_unsafe_entries_witness :
    mustRetain c4Entry 10 = true ∧ entryHasPersistence c4Entry = false ∧
    alookup (tClean c4Tier 10).2.contents "B" = some c4Entry :=
  ⟨by decide, by decide,
   eviction_preserves_unsafe_entries c4Tier 10 "B" c4Entry (by decide)
     (by decide) (by decide) (by decide)⟩

/-- Claim C5: inserting a fifth entry into a four-element memory tier should
trigger a clean that evicts the two oldest non-retained entries.  Refuted:
`ImageCache.add` returns at line 340, before its over-bound check, so no
clean is triggered and all five entries remain; moreover hysteresis is
hard-coded to 0.3 (not the configured 0.5), and even a directly invoked
`_clean` raises `AttributeError` out of the delete path's
`_async_write_back` (every fresh entry is `must_retain()` under the inverted
comparison of C7) and evicts nothing. -/
theorem fifth_insert_triggers_no_eviction :
    let img : String → PyImage := fun s => { nameStr := s, size := 10 }
    let t1 : Tier := (tAdd { maxElements := 4 } "E1" (img "E1") false false 1).2
    let t2 := (tAdd t1 "E2" (img "E2") false false 2).2
    let t3 := (tAdd t2 "E3" (img "E3") true false 3).2
    let t4 := (tAdd t3 "E4" (img "E4") true false 4).2
    let r5 := tAdd t4 "E5" (img "E5") false false 5
    r5.1 = .ok (.bool true) ∧
    r5.2.contents.map Prod.fst = ["E1", "E2", "E3", "E4", "E5"] ∧
    (tClean r5.2 6).1 = some .attributeError ∧
    (tClean r5.2 6).2.contents.map Prod.fst =
      ["E1", "E2", "E3", "E4", "E5"] := by
  decide

/-- Claim C6: after any sequence of `add` / `get` / `delete` operations, a
tier's `_size` equals the sum of the `size` fields of the entries in
`_contents`.  Confirmed: `add` updates both under the lock before anything
can raise, `get` only touches `access_time`, and `delete` either raises
before mutating or removes the entry and its size together. -/
theorem size_used_matches_contents (ops : List (TierOp × Int)) (t : Tier)
    (h : sizeInv t) : sizeInv (runOps t ops) := by
  induction ops generalizing t with
  | nil => exact h
  | cons p rest ih =>
    obtain ⟨op, now⟩ := p
    cases op with
    | addOp name img retain mustR =>
      exact ih _ (sizeInv_tAdd t name img retain mustR now h)
    | getOp name => exact ih _ (sizeInv_tGet t name now h)
    | delOp name => exact ih _ (sizeInv_tDelete t name now h)

/-- Witness for C6 on a concrete operation sequence that inserts, hits and
deletes. -/
theorem size_used_matches_contents_witness :
    sizeInv ({} : Tier) ∧
    sizeInv (runOps {}
      [(.addOp "a" { nameStr := "a", size := 5 } false false, 0),
       (.addOp "b" { nameStr := "b", size := 7 } true false, 0),
       (.getOp "a", 1),
       (.delOp "a", 0)]) :=
  ⟨by decide,
   size_used_matches_contents
     [(.addOp "a" { nameStr := "a", size := 5 } false false, 0),
      (.addOp "b" { nameStr := "b", size := 7 } true false, 0),
      (.getOp "a", 1),
      (.delOp "a", 0)] {} (by decide)⟩

/-- Claim C8, as stated, is false: `get_as_defined` inserts the derived image
into the hierarchy before comparing names, so after one mismatching call the
mismatched image sits in the memory tier under `render(N)`, and a second,
successful `get_as_defined(N)` returns it even though its rendered name
differs from `render(N)`. -/
theorem get_as_defined_returns_mismatched_cached_image :
    let nm := imageNameInit (some "base+size(10,10).jpg") none
    let m0 : Master := { baseImages := [(some "base",
      { nameStr := "base+original(orig.jpg).jpg", kind := some "jpg",
        baseName := some "base" })] }
    let derive : PyImageName → PyImage :=
      fun _ => { nameStr := "base+size(99,99).jpg", size := 7 }
    let step1 := getAsDefined m0 derive nm 100
    nm.isDerived = true ∧
    step1.1 = .error .repositoryFailure ∧
    (getAsDefined step1.2 derive nm 101).1 =
      .ok { nameStr := "base+size(99,99).jpg", size := 7 } ∧
    ("base+size(99,99).jpg" : String) ≠ renderName nm := by
  decide

/-- Claim C8 amended: on a cache miss, a derived name that `get_as_defined`
resolves successfully yields an image whose rendered name equals
`render(N)`; a mismatching derivation makes that call fail (though it has
already polluted the cache, as the counterexample shows). -/
theorem get_as_defined_miss_path_name_matches (m : Master)
    (derive : PyImageName → PyImage) (nm : PyImageName) (now : Int)
    (img : PyImage)
    (hmiss : (masterGet m (renderName nm) now).1 = none)
    (hder : nm.isDerived = true)
    (hok : (getAsDefined m derive nm now).1 = .ok img) :
    img.nameStr = renderName nm := by
  unfold getAsDefined at hok
  rcases hmg : masterGet m (renderName nm) now with ⟨v, m'⟩
  rw [hmg] at hok hmiss
  obtain rfl : v = none := hmiss
  simp only at hok
  cases hbl : blookup m'.baseImages nm.baseName with
  | none => rw [hbl] at hok; simp at hok
  | some baseImg =>
    rw [hbl] at hok
    simp only at hok
    have hcond : ¬(nm.isDerived = false ∧ nm.imageKind ≠ baseImg.kind) := by
      rintro ⟨hf, _⟩
      rw [hder] at hf
      exact Bool.noConfusion hf
    simp only [if_neg hcond] at hok
    rcases hma : masterAdd m' (renderName nm) (derive nm) false false now
      with ⟨r, m2⟩
    rw [hma] at hok
    cases r with
    | error e => simp at hok
    | ok pr =>
      simp only at hok
      by_cases hne : (derive nm).nameStr ≠ renderName nm
      · rw [if_pos hne] at hok
        simp at hok
      · rw [if_neg hne] at hok
        have hinj : Except.ok (ε := PyError) (derive nm) = .ok img := hok
        have h2 := Except.ok.inj hinj
        push_neg at hne
        rw [← h2]
        exact hne

/-- Witness for the amended C8 on a concrete matching derivation. -/
theorem get_as_defined_miss_path_name_matches_witness :
    ({ nameStr := "base+size(10,10).jpg", size := 7 } : PyImage).nameStr =
      renderName (imageNameInit (some "base+size(10,10).jpg") none) :=
  get_as_defined_miss_path_name_matches
    { baseImages := [(some "base",
        { nameStr := "base+original(orig.jpg).jpg", kind := some "jpg",
          baseName := some "base" })] }
    (fun _ => { nameStr := "base+size(10,10).jpg", size := 7 })
    (imageNameInit (some "base+size(10,10).jpg") none) 100
    { nameStr := "base+size(10,10).jpg", size := 7 }
    (by decide) (by decide) (by decide)

/-- Claim C9: the thumbnail should fit the target box preserving the source
aspect ratio, with liquid rescaling only in the clamped extreme-ratio cases
when the `liquid` flag is set.  Refuted at box (100,50), source 80 by 80 with
the configured cut-in ratio 5 and no `liquid` flag: no clamp applies, yet the
computed box is 100 by 50 — aspect 2, not the source's 1 (the formulas
`size[0] * image_aspect_ratio` and `size[1] / image_aspect_ratio` only
preserve aspect for square boxes) — and `try_liquid` is initialised `True`,
so a liquid rescale is attempted although the flag is absent.  The square-box
case is included to show the formula agrees with the claim there. -/
theorem thumbnail_box_distorts_aspect_and_defaults_liquid :
    thumbnailBox 100 50 80 80 none ⟨5, 1⟩ = ((100, 50), true) ∧
    feq (fdiv (fofNat 100) (fofNat 50)) (fdiv (fofNat 80) (fofNat 80)) =
      false ∧
    thumbnailBox 50 50 80 80 none ⟨5, 1⟩ = ((50, 50), true) := by
  decide

end ImageRepo
